import Mathlib

/-!
Bounded blocking queue (`src/lab.c`).

A shallow embedding of the queue of `lab.c`.  Every operation of the source
runs its body while holding `q->lock`, so one call is one atomic transition of
the queue record; a call that reaches `pthread_cond_wait` gives the lock back
without having written anything and is reported as `Outcome.waiting`.  When it
is woken it re-evaluates its loop condition in the state of that moment, which
is the same as applying the operation to that later state.

A `Queue` record is a `struct queue` that lies inside the block allocated for
it; the operations are defined on such records.  `queue_init` is modelled with
the size of the block it requests, and reports whether the structure it fills
in lies inside that block.  The mutex and the two condition variables appear
through the wake-up calls an operation emits and through their place in the
structure.
-/

namespace Lab

/-- A `void *` value, modelled by its address; address `0` is `NULL`. -/
abbrev Ptr := Nat

/-- The null pointer. -/
def NULL : Ptr := 0

/-- Largest value of a C `int` (32 bits). -/
def INT_MAX : Int := 2147483647

/-- Smallest value of a C `int` (32 bits). -/
def INT_MIN : Int := -2147483648

/-- Size of a `void *` in bytes (LP64). -/
def SIZEOF_PTR : Nat := 8

/-- Number of values of `size_t` (64 bits). -/
def SIZE_MODULUS : Nat := 2 ^ 64

/-- The two condition variables of `struct queue`. -/
inductive Cond where
  | not_empty
  | not_full
deriving DecidableEq

/-- A wake-up call on a condition variable: `pthread_cond_signal` or
`pthread_cond_broadcast`. -/
inductive Wake where
  | signal (c : Cond)
  | broadcast (c : Cond)
deriving DecidableEq

/-- The data fields of `struct queue`.  `data` is the block returned by the
second `malloc` of `queue_init`: one list entry per allocated slot. -/
structure Queue where
  data : List Ptr
  capacity : Int
  size : Int
  head : Int
  tail : Int
  shutdown : Bool
deriving DecidableEq

/-- What a call does.  `done q ret wakes`: the call returned `ret`, left the
queue behind handle as `q` (`none` is the `NULL` handle) and emitted `wakes`.
`waiting c`: the call is suspended in `pthread_cond_wait` on `c`, nothing
written.  `fault`: undefined behaviour (a buffer access outside the allocated
slots, signed overflow, or `%` by zero). -/
inductive Outcome (α : Type) where
  | done (q : Option Queue) (ret : α) (wakes : List Wake)
  | waiting (c : Cond)
  | fault
deriving DecidableEq

/-- Signed `int` addition; overflow is undefined. -/
def int_add (a b : Int) : Option Int :=
  if INT_MIN ≤ a + b ∧ a + b ≤ INT_MAX then some (a + b) else none

/-- Signed `int` subtraction; overflow is undefined. -/
def int_sub (a b : Int) : Option Int :=
  if INT_MIN ≤ a - b ∧ a - b ≤ INT_MAX then some (a - b) else none

/-- The C operator `%` on `int`: truncated remainder, undefined for a zero
divisor and for `INT_MIN % -1`. -/
def int_mod (a b : Int) : Option Int :=
  if b = 0 ∨ (a = INT_MIN ∧ b = -1) then none else some (Int.tmod a b)

/-- Read `data[i]`; `none` outside the allocated slots. -/
def load (data : List Ptr) (i : Int) : Option Ptr :=
  if 0 ≤ i ∧ i < data.length then data[i.toNat]? else none

/-- Write `data[i] = v`; `none` outside the allocated slots. -/
def store (data : List Ptr) (i : Int) (v : Ptr) : Option (List Ptr) :=
  if 0 ≤ i ∧ i < data.length then some (data.set i.toNat v) else none

/-- What the C library answers to the calls `queue_init` makes.
`malloc_data n` is the answer to `malloc` of `n` bytes for the buffer: `none`
when it returns `NULL`, else the indeterminate contents of the fresh block,
slot by slot. -/
structure Env where
  malloc_queue : Bool
  malloc_data : Nat → Option (Nat → Ptr)
  mutex_ok : Bool
  cond_not_empty_ok : Bool
  cond_not_full_ok : Bool

/-- Bytes requested by `malloc(capacity * sizeof(void *))`: the product is
computed in `size_t`. -/
def data_bytes (capacity : Int) : Nat :=
  ((capacity * (SIZEOF_PTR : Int)) % (SIZE_MODULUS : Int)).toNat

/-- The members of `struct queue` (lab.c 4-14). -/
inductive Member where
  | data
  | capacity
  | size
  | head
  | tail
  | shutdown
  | lock
  | not_empty
  | not_full
deriving DecidableEq

/-- Byte offset of a member in `struct queue` (LP64, glibc: pointer 8, `int` 4,
`bool` 1, `pthread_mutex_t` 40 and `pthread_cond_t` 48 bytes, both 8-aligned). -/
def Member.offset : Member → Nat
  | .data => 0
  | .capacity => 8
  | .size => 12
  | .head => 16
  | .tail => 20
  | .shutdown => 24
  | .lock => 32
  | .not_empty => 72
  | .not_full => 120

/-- Byte width of a member of `struct queue`. -/
def Member.width : Member → Nat
  | .data => 8
  | .capacity => 4
  | .size => 4
  | .head => 4
  | .tail => 4
  | .shutdown => 1
  | .lock => 40
  | .not_empty => 48
  | .not_full => 48

/-- Bytes of `struct queue`: the end of its last member. -/
def SIZEOF_STRUCT_QUEUE : Nat := Member.offset Member.not_full + Member.width Member.not_full

/-- Bytes of `queue_t`, which lab.c 4-14 declares as the pointer type
`struct queue *`: what `malloc(sizeof(queue_t))` at lab.c 18 requests. -/
def SIZEOF_QUEUE_T : Nat := SIZEOF_PTR

/-- Whether the member lies inside a block of `block` bytes that starts where
the structure starts. -/
def Member.in_block (block : Nat) (m : Member) : Bool :=
  decide (m.offset + m.width ≤ block)

/-- Whether all the listed members lie inside the block. -/
def members_in_block (block : Nat) (ms : List Member) : Bool :=
  ms.all (Member.in_block block)

/-- What a call of `queue_init` did.  `returned`: the pointer handed back,
`none` for `NULL`, else the values the call stored in the members of the
structure.  `defined`: whether every member the call accessed lies inside the
block it allocated for the structure; when it is false the call has undefined
behaviour (accesses outside an allocation) and the structure behind the
returned handle is not inside its block. -/
structure Built where
  returned : Option Queue
  defined : Bool
deriving DecidableEq

/-- `queue_init` (lab.c 16-59).  The block for the structure has the
`SIZEOF_QUEUE_T` bytes requested at lab.c 18; lab.c 24-31 then store
`capacity`, `size`, `head`, `tail`, `shutdown` and `data`, and lab.c 39-56
initialise `lock`, `not_empty` and `not_full` in it. -/
def queue_init (env : Env) (capacity : Int) : Built :=
  if env.malloc_queue = false then { returned := none, defined := true }
  else
    let block := SIZEOF_QUEUE_T
    let stored := members_in_block block
      [Member.capacity, Member.size, Member.head, Member.tail, Member.shutdown, Member.data]
    match env.malloc_data (data_bytes capacity) with
    | none => { returned := none, defined := stored }
    | some contents =>
      let locked := stored && Member.in_block block Member.lock
      if env.mutex_ok = false then { returned := none, defined := locked }
      else
        let cond1 := locked && Member.in_block block Member.not_empty
        if env.cond_not_empty_ok = false then { returned := none, defined := cond1 }
        else
          let cond2 := cond1 && Member.in_block block Member.not_full
          if env.cond_not_full_ok = false then { returned := none, defined := cond2 }
          else
            { returned := some
                { data := (List.range (data_bytes capacity / SIZEOF_PTR)).map contents
                  capacity := capacity
                  size := 0
                  head := 0
                  tail := 1
                  shutdown := false }
              defined := cond2 }

/-- The handle a caller holds after `queue_init`, as the operations take it:
`some none` is the `NULL` handle, `some (some q)` a structure inside its block
holding `q`, and `none` a handle to a structure that is not inside its block,
on which every `q->member` access of every operation is outside the
allocation: undefined behaviour. -/
def Built.handle (b : Built) : Option (Option Queue) :=
  match b.returned with
  | none => some none
  | some q => if b.defined = true then some (some q) else none

/-- A resource handed back by `queue_destroy`: the buffer, the mutex, a
condition variable, or the queue structure itself. -/
inductive Release where
  | free_data
  | mutex_destroy
  | cond_destroy (c : Cond)
  | free_queue
deriving DecidableEq

/-- `queue_destroy` (lab.c 61-75): the resources the call releases, in the
order of the source; nothing at all for the `NULL` handle. -/
def queue_destroy (q : Option Queue) : List Release :=
  match q with
  | none => []
  | some _ =>
    [Release.free_data, Release.mutex_destroy, Release.cond_destroy Cond.not_empty,
      Release.cond_destroy Cond.not_full, Release.free_queue]

/-- `enqueue` (lab.c 77-102). -/
def enqueue (q : Option Queue) (data : Ptr) : Outcome Unit :=
  match q with
  | none => .done none () []
  | some q =>
    if data = NULL then .done (some q) () []
    else if q.size = q.capacity ∧ q.shutdown = false then .waiting .not_full
    else if q.shutdown = true then .done (some q) () []
    else
      let r : Option (Queue × List Wake) := do
        let buf ← store q.data q.tail data
        let t ← int_add q.tail 1
        let t ← int_mod t q.capacity
        let sz ← int_add q.size 1
        pure ({ q with data := buf, tail := t, size := sz },
              if sz = 1 then [Wake.signal Cond.not_empty] else [])
      match r with
      | none => .fault
      | some (q', wakes) => .done (some q') () wakes

/-- `dequeue` (lab.c 104-131). -/
def dequeue (q : Option Queue) : Outcome Ptr :=
  match q with
  | none => .done none NULL []
  | some q =>
    if q.size = 0 ∧ q.shutdown = false then .waiting .not_empty
    else if q.shutdown = true then .done (some q) NULL []
    else
      let r : Option (Queue × Ptr × List Wake) := do
        let data ← load q.data q.head
        let buf ← store q.data q.head NULL
        let h ← int_add q.head 1
        let h ← int_mod h q.capacity
        let sz ← int_sub q.size 1
        let c1 ← int_sub q.capacity 1
        pure ({ q with data := buf, head := h, size := sz }, data,
              if sz = c1 then [Wake.signal Cond.not_full] else [])
      match r with
      | none => .fault
      | some (q', data, wakes) => .done (some q') data wakes

/-- `queue_shutdown` (lab.c 133-143). -/
def queue_shutdown (q : Option Queue) : Outcome Unit :=
  match q with
  | none => .done none () []
  | some q =>
    .done (some { q with shutdown := true }) ()
      [Wake.broadcast Cond.not_empty, Wake.broadcast Cond.not_full]

/-- `is_empty` (lab.c 145-154). -/
def is_empty (q : Option Queue) : Outcome Bool :=
  match q with
  | none => .done none true []
  | some q => .done (some q) (decide (q.size = 0)) []

/-- `is_shutdown` (lab.c 156-165). -/
def is_shutdown (q : Option Queue) : Outcome Bool :=
  match q with
  | none => .done none true []
  | some q => .done (some q) q.shutdown []

/-- A call on the queue. -/
inductive Op where
  | enqueue (item : Ptr)
  | dequeue
  | queue_shutdown
  | is_empty
  | is_shutdown
deriving DecidableEq

/-- The value a call hands back to its caller. -/
inductive Ret where
  | void
  | ptr (p : Ptr)
  | bool (b : Bool)
deriving DecidableEq

/-- Change the type of the returned value of an outcome. -/
def Outcome.mapRet {α β : Type} (f : α → β) : Outcome α → Outcome β
  | .done q r w => .done q (f r) w
  | .waiting c => .waiting c
  | .fault => .fault

/-- One call, dispatched on the operation. -/
def step (q : Option Queue) : Op → Outcome Ret
  | .enqueue item => (enqueue q item).mapRet (fun _ => Ret.void)
  | .dequeue => (dequeue q).mapRet Ret.ptr
  | .queue_shutdown => (queue_shutdown q).mapRet (fun _ => Ret.void)
  | .is_empty => (is_empty q).mapRet Ret.bool
  | .is_shutdown => (is_shutdown q).mapRet Ret.bool

/-- A sequence of completed calls, one after the other: the final queue and the
values returned, in call order.  `none` when some call of the sequence does not
complete in the state it meets (it waits, or its behaviour is undefined). -/
def run (q : Option Queue) : List Op → Option (Option Queue × List Ret)
  | [] => some (q, [])
  | op :: ops =>
    match step q op with
    | .done q' r _ =>
      match run q' ops with
      | some (qf, rs) => some (qf, r :: rs)
      | none => none
    | .waiting _ => none
    | .fault => none

/-- A C library in which every call of `queue_init` succeeds and fresh memory
holds the recognisable junk value `170` in every slot. -/
def env_ok : Env :=
  { malloc_queue := true
    malloc_data := fun _ => some (fun _ => 170)
    mutex_ok := true
    cond_not_empty_ok := true
    cond_not_full_ok := true }

/-- The values `queue_init(capacity)` stores in the members of the structure
when the C library cooperates and the fresh buffer holds junk, written out
member by member. -/
def fresh (slots : Nat) (capacity : Int) : Queue :=
  { data := List.replicate slots 170
    capacity := capacity
    size := 0
    head := 0
    tail := 1
    shutdown := false }

/-- The abstract FIFO queue of the specification, stated from its words: a
list of at most `capacity` items; a completing enqueue of a non-null item
appends it at the back, a completing dequeue removes and returns the front
item.  `none` when the call is not a completing one in the state it meets, or
is not an enqueue or a dequeue. -/
def spec_fifo_step (capacity : Int) (items : List Ptr) : Op → Option (List Ptr × Ret)
  | .enqueue item =>
    if item ≠ NULL ∧ (items.length : Int) < capacity then some (items ++ [item], Ret.void)
    else none
  | .dequeue =>
    match items with
    | [] => none
    | front :: rest => some (rest, Ret.ptr front)
  | _ => none

/-- The values returned by a sequence of completing calls on the abstract FIFO
queue of the specification. -/
def spec_fifo_run (capacity : Int) (items : List Ptr) : List Op → Option (List Ret)
  | [] => some []
  | op :: ops =>
    match spec_fifo_step capacity items op with
    | some (items', r) =>
      match spec_fifo_run capacity items' ops with
      | some rs => some (r :: rs)
      | none => none
    | none => none

/-- The calls of the FIFO property: enqueue every item of the list in order,
then dequeue as many times as there are items. -/
def fill_then_drain (items : List Ptr) : List Op :=
  items.map Op.enqueue ++ List.replicate items.length Op.dequeue

/-- The program `queue_init(capacity)` followed by a sequence of calls on the
handle it returned: the values the calls return, in call order.  `none` when
the behaviour is not defined to the end: the structure behind the handle is
not inside its block, or a call waits or faults. -/
def run_program (env : Env) (capacity : Int) (ops : List Op) : Option (List Ret) :=
  match (queue_init env capacity).handle with
  | none => none
  | some h =>
    match run h ops with
    | some (_, rets) => some rets
    | none => none

/-- The value a call handed back to its caller, when the call returned. -/
def Outcome.returned {α : Type} : Outcome α → Option α
  | .done _ r _ => some r
  | .waiting _ => none
  | .fault => none

/-- The ring-buffer invariant of the data model, stated from the words of the
specification: a positive capacity, `head` and `tail` valid indices, `size`
between 0 and `capacity`, and `tail` at the end of the circular span that
starts at `head` and is `size` slots long. -/
def ring_inv (q : Queue) : Prop :=
  1 ≤ q.capacity ∧ (0 ≤ q.head ∧ q.head < q.capacity) ∧ (0 ≤ q.tail ∧ q.tail < q.capacity) ∧
    (0 ≤ q.size ∧ q.size ≤ q.capacity) ∧ q.tail = (q.head + q.size) % q.capacity

instance ring_inv_decidable (q : Queue) : Decidable (ring_inv q) := by
  unfold ring_inv
  infer_instance

/-! Shared lemmas -/

theorem queue_init_fields (env : Env) (c : Int) (q : Queue)
    (hq : (queue_init env c).returned = some q) :
    q.capacity = c ∧ q.size = 0 ∧ q.head = 0 ∧ q.tail = 1 ∧ q.shutdown = false ∧
      q.data.length = data_bytes c / SIZEOF_PTR := by
  unfold queue_init at hq
  split at hq
  · exact absurd hq (by simp)
  · split at hq
    · exact absurd hq (by simp)
    · split at hq
      · exact absurd hq (by simp)
      · split at hq
        · exact absurd hq (by simp)
        · split at hq
          · exact absurd hq (by simp)
          · simp only [Option.some.injEq] at hq
            subst hq
            simp

/-- The structure `queue_init` fills in lies inside its block only on the path
that allocates none: whenever the first `malloc` answers a block, the call
stores members outside it. -/
theorem queue_init_defined_iff (env : Env) (c : Int) :
    (queue_init env c).defined = true ↔ env.malloc_queue = false := by
  unfold queue_init
  cases hq : env.malloc_queue <;> cases hd : env.malloc_data (data_bytes c) <;>
    cases hm : env.mutex_ok <;> cases he : env.cond_not_empty_ok <;>
    cases hf : env.cond_not_full_ok <;> simp <;> decide

/-- No queue `queue_init` returns is one the operations are defined on. -/
theorem queue_init_handle (env : Env) (c : Int) (q : Queue)
    (hq : (queue_init env c).returned = some q) : (queue_init env c).handle = none := by
  have hdef : (queue_init env c).defined = false := by
    cases hm : env.malloc_queue with
    | false =>
      have : (queue_init env c).returned = none := by simp [queue_init, hm]
      rw [this] at hq
      exact absurd hq (by simp)
    | true =>
      cases hd : (queue_init env c).defined with
      | false => rfl
      | true =>
        rw [(queue_init_defined_iff env c).1 hd] at hm
        exact absurd hm (by simp)
  simp [Built.handle, hq, hdef]

/-- A run hands back one value per call. -/
theorem run_length (ops : List Op) (q qf : Option Queue) (rets : List Ret)
    (hrun : run q ops = some (qf, rets)) : rets.length = ops.length := by
  induction ops generalizing q rets with
  | nil =>
    simp only [run, Option.some.injEq, Prod.mk.injEq] at hrun
    rw [← hrun.2]
    rfl
  | cons op ops ih =>
    simp only [run] at hrun
    cases hs : step q op with
    | waiting c => simp [hs] at hrun
    | fault => simp [hs] at hrun
    | done q1 r w =>
      simp only [hs] at hrun
      cases hr : run q1 ops with
      | none => simp [hr] at hrun
      | some res =>
        obtain ⟨qf', rs⟩ := res
        simp only [hr, Option.some.injEq, Prod.mk.injEq] at hrun
        rw [← hrun.2, List.length_cons, List.length_cons, ih q1 rs (hrun.1 ▸ hr)]

/-- In a shut-down queue every call returns at once, leaves the whole record
as it was, and a dequeue hands back `NULL`. -/
theorem step_of_shutdown (q : Queue) (h : q.shutdown = true) (op : Op) :
    ∃ r w, step (some q) op = Outcome.done (some q) r w ∧ ∀ p, r = Ret.ptr p → p = NULL := by
  obtain ⟨d, c, s, hd, t, sh⟩ := q
  simp only at h
  subst h
  cases op <;> simp [step, enqueue, dequeue, queue_shutdown, is_empty, is_shutdown,
    Outcome.mapRet]

theorem run_of_shutdown (q : Queue) (h : q.shutdown = true) (ops : List Op) :
    ∃ rets, run (some q) ops = some (some q, rets) ∧ ∀ p, Ret.ptr p ∈ rets → p = NULL := by
  induction ops with
  | nil => exact ⟨[], rfl, by simp⟩
  | cons op ops ih =>
    obtain ⟨r, w, hstep, hr⟩ := step_of_shutdown q h op
    obtain ⟨rets, hrun, hrets⟩ := ih
    refine ⟨r :: rets, ?_, ?_⟩
    · simp [run, hstep, hrun]
    · intro p hp
      rcases List.mem_cons.1 hp with hp | hp
      · exact hr p hp.symm
      · exact hrets p hp

theorem int_add_some (a b x : Int) (h : int_add a b = some x) :
    x = a + b ∧ INT_MIN ≤ a + b ∧ a + b ≤ INT_MAX := by
  unfold int_add at h
  split_ifs at h with hr
  simp only [Option.some.injEq] at h
  exact ⟨h.symm, hr.1, hr.2⟩

theorem int_sub_some (a b x : Int) (h : int_sub a b = some x) :
    x = a - b ∧ INT_MIN ≤ a - b ∧ a - b ≤ INT_MAX := by
  unfold int_sub at h
  split_ifs at h with hr
  simp only [Option.some.injEq] at h
  exact ⟨h.symm, hr.1, hr.2⟩

theorem int_mod_some (a b x : Int) (h : int_mod a b = some x) :
    x = Int.tmod a b ∧ b ≠ 0 := by
  unfold int_mod at h
  split_ifs at h with hr
  simp only [Option.some.injEq] at h
  exact ⟨h.symm, fun hb => hr (Or.inl hb)⟩

theorem store_some (data : List Ptr) (i : Int) (v : Ptr) (buf : List Ptr)
    (h : store data i v = some buf) :
    0 ≤ i ∧ i < data.length ∧ buf = data.set i.toNat v := by
  unfold store at h
  split_ifs at h with hr
  simp only [Option.some.injEq] at h
  exact ⟨hr.1, hr.2, h.symm⟩

theorem enqueue_rejected_closed (q : Queue) (h : q.shutdown = true) (item : Ptr) :
    enqueue (some q) item = Outcome.done (some q) () [] := by
  simp [enqueue, h]

theorem dequeue_rejected_closed (q : Queue) (h : q.shutdown = true) :
    dequeue (some q) = Outcome.done (some q) NULL [] := by
  simp [dequeue, h]

/-- What a completed `enqueue` on a live handle did: nothing (null item or
shut-down queue), or one insertion at `tail`. -/
theorem enqueue_done (q : Queue) (item : Ptr) (qo : Option Queue) (w : List Wake)
    (h : enqueue (some q) item = Outcome.done qo () w) :
    (qo = some q ∧ w = [] ∧ (item = NULL ∨ q.shutdown = true)) ∨
    (item ≠ NULL ∧ q.shutdown = false ∧ q.size ≠ q.capacity ∧
      ∃ buf t, store q.data q.tail item = some buf ∧
        int_add q.tail 1 = some (q.tail + 1) ∧
        int_mod (q.tail + 1) q.capacity = some t ∧
        int_add q.size 1 = some (q.size + 1) ∧
        qo = some { q with data := buf, tail := t, size := q.size + 1 } ∧
        w = if q.size + 1 = 1 then [Wake.signal Cond.not_empty] else []) := by
  simp only [enqueue] at h
  split_ifs at h with h1 h2 h3
  · simp only [Outcome.done.injEq] at h
    exact Or.inl ⟨h.1.symm, h.2.2.symm, Or.inl h1⟩
  · simp only [Outcome.done.injEq] at h
    exact Or.inl ⟨h.1.symm, h.2.2.symm, Or.inr h3⟩
  · have hsh : q.shutdown = false := by simpa using h3
    have hsz : q.size ≠ q.capacity := fun e => h2 ⟨e, hsh⟩
    cases hst : store q.data q.tail item with
    | none => simp [hst] at h
    | some buf =>
      cases hta : int_add q.tail 1 with
      | none => simp [hst, hta] at h
      | some t1 =>
        have e1 := (int_add_some _ _ _ hta).1
        subst e1
        cases htm : int_mod (q.tail + 1) q.capacity with
        | none => simp [hst, hta, htm] at h
        | some t =>
          cases hsa : int_add q.size 1 with
          | none => simp [hst, hta, htm, hsa] at h
          | some sz =>
            have e2 := (int_add_some _ _ _ hsa).1
            subst e2
            simp only [hst, hta, htm, hsa, Option.bind_eq_bind, Option.some_bind,
              Option.pure_def, Outcome.done.injEq, true_and] at h
            exact Or.inr ⟨h1, hsh, hsz, buf, t, rfl, rfl, rfl, rfl, h.1.symm, h.2.symm⟩

/-- What a completed `dequeue` on a live handle did: nothing (shut-down queue,
`NULL` returned), or one removal at `head`. -/
theorem dequeue_done (q : Queue) (qo : Option Queue) (p : Ptr) (w : List Wake)
    (h : dequeue (some q) = Outcome.done qo p w) :
    (qo = some q ∧ w = [] ∧ p = NULL ∧ q.shutdown = true) ∨
    (q.shutdown = false ∧ q.size ≠ 0 ∧
      ∃ buf hd, load q.data q.head = some p ∧
        store q.data q.head NULL = some buf ∧
        int_add q.head 1 = some (q.head + 1) ∧
        int_mod (q.head + 1) q.capacity = some hd ∧
        int_sub q.size 1 = some (q.size - 1) ∧
        int_sub q.capacity 1 = some (q.capacity - 1) ∧
        qo = some { q with data := buf, head := hd, size := q.size - 1 } ∧
        w = if q.size - 1 = q.capacity - 1 then [Wake.signal Cond.not_full] else []) := by
  simp only [dequeue] at h
  split_ifs at h with h2 h3
  · simp only [Outcome.done.injEq] at h
    exact Or.inl ⟨h.1.symm, h.2.2.symm, h.2.1.symm, h3⟩
  · have hsh : q.shutdown = false := by simpa using h3
    have hsz : q.size ≠ 0 := fun e => h2 ⟨e, hsh⟩
    cases hld : load q.data q.head with
    | none => simp [hld] at h
    | some d =>
      cases hst : store q.data q.head NULL with
      | none => simp [hld, hst] at h
      | some buf =>
        cases hha : int_add q.head 1 with
        | none => simp [hld, hst, hha] at h
        | some h1 =>
          have e1 := (int_add_some _ _ _ hha).1
          subst e1
          cases hhm : int_mod (q.head + 1) q.capacity with
          | none => simp [hld, hst, hha, hhm] at h
          | some hd =>
            cases hss : int_sub q.size 1 with
            | none => simp [hld, hst, hha, hhm, hss] at h
            | some sz =>
              have e2 := (int_sub_some _ _ _ hss).1
              subst e2
              cases hcs : int_sub q.capacity 1 with
              | none => simp [hld, hst, hha, hhm, hss, hcs] at h
              | some c1 =>
                have e3 := (int_sub_some _ _ _ hcs).1
                subst e3
                simp only [hld, hst, hha, hhm, hss, hcs, Option.bind_eq_bind, Option.some_bind,
                  Option.pure_def, Outcome.done.injEq] at h
                obtain ⟨hq', hp, hw⟩ := h
                subst hp
                exact Or.inr ⟨hsh, hsz, buf, hd, rfl, rfl, rfl, rfl, rfl, rfl, hq'.symm, hw.symm⟩

/-- The bound on `size` and the fixed `capacity` pass through every completed
call on a live handle, and the handle stays live. -/
theorem step_size (q : Queue) (op : Op) (qo : Option Queue) (r : Ret) (w : List Wake)
    (hstep : step (some q) op = Outcome.done qo r w)
    (hinv : 0 ≤ q.size ∧ q.size ≤ q.capacity) :
    ∃ q', qo = some q' ∧ q'.capacity = q.capacity ∧ 0 ≤ q'.size ∧ q'.size ≤ q'.capacity := by
  cases op with
  | enqueue item =>
    simp only [step] at hstep
    cases he : enqueue (some q) item with
    | waiting c => simp [he, Outcome.mapRet] at hstep
    | fault => simp [he, Outcome.mapRet] at hstep
    | done qo' u w' =>
      simp only [he, Outcome.mapRet, Outcome.done.injEq] at hstep
      obtain ⟨rfl, -, rfl⟩ := hstep
      rcases enqueue_done q item _ _ he with ⟨rfl, -, -⟩ | ⟨-, -, hne, buf, t, -, -, -, -, rfl, -⟩
      · exact ⟨q, rfl, rfl, hinv⟩
      · refine ⟨_, rfl, rfl, ?_, ?_⟩ <;> simp only <;> omega
  | dequeue =>
    simp only [step] at hstep
    cases he : dequeue (some q) with
    | waiting c => simp [he, Outcome.mapRet] at hstep
    | fault => simp [he, Outcome.mapRet] at hstep
    | done qo' u w' =>
      simp only [he, Outcome.mapRet, Outcome.done.injEq] at hstep
      obtain ⟨rfl, -, rfl⟩ := hstep
      rcases dequeue_done q _ _ _ he with ⟨rfl, -, -, -⟩ | ⟨-, hne, buf, t, -, -, -, -, -, -, rfl, -⟩
      · exact ⟨q, rfl, rfl, hinv⟩
      · refine ⟨_, rfl, rfl, ?_, ?_⟩ <;> simp only <;> omega
  | queue_shutdown =>
    simp only [step, queue_shutdown, Outcome.mapRet, Outcome.done.injEq] at hstep
    exact ⟨_, hstep.1.symm, rfl, hinv⟩
  | is_empty =>
    simp only [step, is_empty, Outcome.mapRet, Outcome.done.injEq] at hstep
    exact ⟨_, hstep.1.symm, rfl, hinv⟩
  | is_shutdown =>
    simp only [step, is_shutdown, Outcome.mapRet, Outcome.done.injEq] at hstep
    exact ⟨_, hstep.1.symm, rfl, hinv⟩

theorem run_size (ops : List Op) (q : Queue) (qo : Option Queue) (rets : List Ret)
    (hrun : run (some q) ops = some (qo, rets))
    (hinv : 0 ≤ q.size ∧ q.size ≤ q.capacity) :
    ∃ q', qo = some q' ∧ q'.capacity = q.capacity ∧ 0 ≤ q'.size ∧ q'.size ≤ q'.capacity := by
  induction ops generalizing q rets with
  | nil =>
    simp only [run, Option.some.injEq, Prod.mk.injEq] at hrun
    exact ⟨q, hrun.1.symm, rfl, hinv⟩
  | cons op ops ih =>
    simp only [run] at hrun
    cases hs : step (some q) op with
    | waiting c => simp [hs] at hrun
    | fault => simp [hs] at hrun
    | done q1 r w =>
      obtain ⟨q2, rfl, hcap, hinv2⟩ := step_size q op q1 r w hs hinv
      simp only [hs] at hrun
      cases hr : run (some q2) ops with
      | none => simp [hr] at hrun
      | some res =>
        obtain ⟨qf, rs⟩ := res
        simp only [hr, Option.some.injEq, Prod.mk.injEq] at hrun
        obtain ⟨rfl, -⟩ := hrun
        obtain ⟨q3, h3, hcap3, hinv3⟩ := ih q2 rs hr hinv2
        exact ⟨q3, h3, hcap3.trans hcap, hinv3⟩

/-! FIFO order -/

/-- C1: the k-th completed dequeue should return the item of the k-th completed
enqueue, as in an abstract FIFO list.  `queue_init(3)` asks for the 8 bytes of
a pointer for the structure and stores its members outside that block, so the
calls enqueue(1), dequeue, enqueue(2), dequeue on the handle it returns have
undefined behaviour and deliver no order.  And the values it stores put `tail`
one slot ahead of `head`: on a structure that holds them inside its block the
first dequeue returns the never-written slot 0 (junk `170`) and the second
returns item 1, where the abstract FIFO queue returns 1 and then 2. -/
theorem fifo_refinement_broken :
    (queue_init env_ok 3).returned = some (fresh 3 3) ∧
    (queue_init env_ok 3).defined = false ∧
    run_program env_ok 3 [Op.enqueue 1, Op.dequeue, Op.enqueue 2, Op.dequeue] = none ∧
    run (some (fresh 3 3)) [Op.enqueue 1, Op.dequeue, Op.enqueue 2, Op.dequeue]
      = some (some ⟨[0, 0, 2], 3, 0, 2, 0, false⟩,
          [Ret.void, Ret.ptr 170, Ret.void, Ret.ptr 1]) ∧
    spec_fifo_run 3 [] [Op.enqueue 1, Op.dequeue, Op.enqueue 2, Op.dequeue]
      = some [Ret.void, Ret.ptr 1, Ret.void, Ret.ptr 2] := by
  decide

/-- C2: enqueuing e1..en (n ≤ capacity) and then dequeuing n times should
return e1..en in that order.  The structure `queue_init(3)` fills in is not
inside the block allocated for it, so enqueuing 1, 2, 3 and dequeuing three
times on the returned handle has undefined behaviour.  And with the values it
stores (`head = 0`, `tail = 1`) held by a structure inside its block, the
three dequeues return 3, 1, 2. -/
theorem fill_then_drain_rotated :
    (queue_init env_ok 3).returned = some (fresh 3 3) ∧
    (queue_init env_ok 3).handle = none ∧
    (([1, 2, 3] : List Ptr).length : Int) ≤ 3 ∧
    run_program env_ok 3 (fill_then_drain [1, 2, 3]) = none ∧
    run (some (fresh 3 3)) (fill_then_drain [1, 2, 3])
      = some (some ⟨[0, 0, 0], 3, 0, 0, 1, false⟩,
          [Ret.void, Ret.void, Ret.void, Ret.ptr 3, Ret.ptr 1, Ret.ptr 2]) ∧
    spec_fifo_run 3 [] (fill_then_drain [1, 2, 3])
      = some [Ret.void, Ret.void, Ret.void, Ret.ptr 1, Ret.ptr 2, Ret.ptr 3] := by
  decide

/-- C3: the capacity-2 scenario with A = 1, B = 2, C = 3.  The structure
`queue_init(2)` fills in is not inside its block (`size`, `capacity` and
`shutdown`, which decide whether an enqueue waits, are all outside it), so the
scenario has undefined behaviour from the constructor on.  And with the values
it stores held by a structure inside its block, enqueue(A) and enqueue(B)
complete and enqueue(C) waits, but the dequeue returns B, the enqueue(C) it
lets through overwrites A in slot 1, and the last two dequeues return C and
`NULL`: B, C, NULL instead of A, B, C. -/
theorem capacity_two_scenario :
    (queue_init env_ok 2).returned = some (fresh 2 2) ∧
    (queue_init env_ok 2).defined = false ∧
    Member.in_block SIZEOF_QUEUE_T Member.size = false ∧
    Member.in_block SIZEOF_QUEUE_T Member.capacity = false ∧
    Member.in_block SIZEOF_QUEUE_T Member.shutdown = false ∧
    run_program env_ok 2 [Op.enqueue 1, Op.enqueue 2, Op.dequeue, Op.enqueue 3, Op.dequeue,
      Op.dequeue] = none ∧
    run (some (fresh 2 2)) [Op.enqueue 1, Op.enqueue 2]
      = some (some ⟨[2, 1], 2, 2, 0, 1, false⟩, [Ret.void, Ret.void]) ∧
    enqueue (some ⟨[2, 1], 2, 2, 0, 1, false⟩) 3 = Outcome.waiting Cond.not_full ∧
    dequeue (some ⟨[2, 1], 2, 2, 0, 1, false⟩)
      = Outcome.done (some ⟨[0, 1], 2, 1, 1, 1, false⟩) 2 [Wake.signal Cond.not_full] ∧
    enqueue (some ⟨[0, 1], 2, 1, 1, 1, false⟩) 3
      = Outcome.done (some ⟨[0, 3], 2, 2, 1, 0, false⟩) () [] ∧
    run (some ⟨[0, 3], 2, 2, 1, 0, false⟩) [Op.dequeue, Op.dequeue]
      = some (some ⟨[0, 0], 2, 0, 1, 0, false⟩, [Ret.ptr 3, Ret.ptr NULL]) := by
  decide

/-! Bounds -/

/-- C4: `0 ≤ size ≤ capacity` should hold in the state `queue_init` produces
and after every sequence of calls.  `queue_init(1)` asks for 8 bytes for the
structure, and `capacity` (bytes 8 to 12) and `size` (bytes 12 to 16) are
stored outside that block: the structure behind the returned handle is not
inside its allocation, every read of `size` and `capacity` by a later call is
undefined, and so is every sequence of calls on the handle. -/
theorem size_bound_not_established :
    (1 : Int) ≤ 1 ∧
    (queue_init env_ok 1).returned = some (fresh 1 1) ∧
    SIZEOF_QUEUE_T = 8 ∧ SIZEOF_STRUCT_QUEUE = 168 ∧
    Member.in_block SIZEOF_QUEUE_T Member.capacity = false ∧
    Member.in_block SIZEOF_QUEUE_T Member.size = false ∧
    (queue_init env_ok 1).defined = false ∧
    (queue_init env_ok 1).handle = none ∧
    run_program env_ok 1 [] = none ∧
    run_program env_ok 1 [Op.enqueue 5, Op.dequeue, Op.queue_shutdown] = none := by
  decide

/-- C5: `head` and `tail` should be indices below `capacity` in every state, so
that `data[tail]` and `data[head]` stay inside the allocated slots.
`queue_init(1)` stores `tail = 1` for a buffer of one slot, which is not below
`capacity = 1`; an enqueue of a non-null item that finds these values writes
`data[1]`, outside the buffer.  `head` and `tail` themselves are stored outside
the 8-byte block allocated for the structure, so the handle `queue_init(1)`
returns is not one the operations are defined on. -/
theorem capacity_one_tail_out_of_bounds :
    (queue_init env_ok 1).returned = some (fresh 1 1) ∧
    (fresh 1 1).data.length = 1 ∧ (fresh 1 1).capacity = 1 ∧ (fresh 1 1).tail = 1 ∧
    ¬ ((fresh 1 1).tail < (fresh 1 1).capacity) ∧
    store (fresh 1 1).data (fresh 1 1).tail 5 = none ∧
    enqueue (some (fresh 1 1)) 5 = Outcome.fault ∧
    Member.in_block SIZEOF_QUEUE_T Member.head = false ∧
    Member.in_block SIZEOF_QUEUE_T Member.tail = false ∧
    (queue_init env_ok 1).handle = none := by
  decide

/-- C6: in every reachable state `tail` should equal `(head + size) mod
capacity` and the `size` slots from `head` on should hold the pending items in
enqueue order.  The values `queue_init(4)` stores are `tail = 1` with
`(head + size) mod capacity = 0`, and it stores them outside the block
allocated for the structure, so the state behind the returned handle is not
defined at all.  With these values held by a structure inside its block,
enqueue(5) puts the item in slot 1 and leaves `tail = 2` while
`(head + size) mod capacity = 1`, and the one-slot span at `head = 0` holds
junk. -/
theorem circular_span_broken :
    (queue_init env_ok 4).returned = some (fresh 4 4) ∧
    (queue_init env_ok 4).defined = false ∧
    (fresh 4 4).tail = 1 ∧
    Int.tmod ((fresh 4 4).head + (fresh 4 4).size) (fresh 4 4).capacity = 0 ∧
    run_program env_ok 4 [Op.enqueue 5] = none ∧
    enqueue (some (fresh 4 4)) 5
      = Outcome.done (some ⟨[170, 5, 170, 170], 4, 1, 0, 2, false⟩) ()
          [Wake.signal Cond.not_empty] ∧
    Int.tmod (0 + 1) 4 = 1 ∧
    load [170, 5, 170, 170] 0 = some 170 := by
  decide

/-! Shutdown -/

/-- C7: the shutdown flag is monotonic: in every queue state with
`shutdown == true`, each of enqueue (any item), dequeue, queue_shutdown,
is_empty and is_shutdown completes and leaves a state with `shutdown == true`. -/
theorem shutdown_monotonic (q : Queue) (h : q.shutdown = true) :
    (∀ item, ∃ q' w, enqueue (some q) item = Outcome.done (some q') () w ∧
      q'.shutdown = true) ∧
    (∃ q' p w, dequeue (some q) = Outcome.done (some q') p w ∧ q'.shutdown = true) ∧
    (∃ q' w, queue_shutdown (some q) = Outcome.done (some q') () w ∧ q'.shutdown = true) ∧
    (∃ q' b w, is_empty (some q) = Outcome.done (some q') b w ∧ q'.shutdown = true) ∧
    (∃ q' b w, is_shutdown (some q) = Outcome.done (some q') b w ∧ q'.shutdown = true) := by
  refine ⟨fun item => ⟨q, [], ?_, h⟩, ⟨q, NULL, [], ?_, h⟩, ⟨_, _, rfl, rfl⟩,
    ⟨q, _, [], rfl, h⟩, ⟨q, _, [], rfl, h⟩⟩
  · simp [enqueue, h]
  · simp [dequeue, h]

theorem shutdown_monotonic_witness :
    (⟨[7, 8], 2, 2, 0, 0, true⟩ : Queue).shutdown = true ∧
    ((∀ item, ∃ q' w, enqueue (some ⟨[7, 8], 2, 2, 0, 0, true⟩) item
        = Outcome.done (some q') () w ∧ q'.shutdown = true) ∧
    (∃ q' p w, dequeue (some ⟨[7, 8], 2, 2, 0, 0, true⟩) = Outcome.done (some q') p w ∧
      q'.shutdown = true) ∧
    (∃ q' w, queue_shutdown (some ⟨[7, 8], 2, 2, 0, 0, true⟩) = Outcome.done (some q') () w ∧
      q'.shutdown = true) ∧
    (∃ q' b w, is_empty (some ⟨[7, 8], 2, 2, 0, 0, true⟩) = Outcome.done (some q') b w ∧
      q'.shutdown = true) ∧
    (∃ q' b w, is_shutdown (some ⟨[7, 8], 2, 2, 0, 0, true⟩) = Outcome.done (some q') b w ∧
      q'.shutdown = true)) :=
  ⟨rfl, shutdown_monotonic ⟨[7, 8], 2, 2, 0, 0, true⟩ rfl⟩

/-- C8: queue_shutdown is idempotent: called on any state `s` it yields `s`
with `shutdown` set and every other field as it was; called again on that state
it yields the very same state (and the same two broadcasts), and is_shutdown
returns true on it. -/
theorem queue_shutdown_idempotent (s : Queue) :
    queue_shutdown (some s)
      = Outcome.done (some ⟨s.data, s.capacity, s.size, s.head, s.tail, true⟩) ()
          [Wake.broadcast Cond.not_empty, Wake.broadcast Cond.not_full] ∧
    queue_shutdown (some ⟨s.data, s.capacity, s.size, s.head, s.tail, true⟩)
      = Outcome.done (some ⟨s.data, s.capacity, s.size, s.head, s.tail, true⟩) ()
          [Wake.broadcast Cond.not_empty, Wake.broadcast Cond.not_full] ∧
    is_shutdown (some ⟨s.data, s.capacity, s.size, s.head, s.tail, true⟩)
      = Outcome.done (some ⟨s.data, s.capacity, s.size, s.head, s.tail, true⟩) true [] :=
  ⟨rfl, rfl, rfl⟩

/-- C9: in every queue state with `shutdown == true`, enqueue of any item
returns without inserting: the whole record (buffer, size, head, tail and the
rest) is unchanged and no wake-up is emitted. -/
theorem enqueue_rejected_after_shutdown (q : Queue) (h : q.shutdown = true) (item : Ptr) :
    enqueue (some q) item = Outcome.done (some q) () [] := by
  simp [enqueue, h]

theorem enqueue_rejected_after_shutdown_witness :
    (⟨[0, 8, 9], 3, 2, 1, 0, true⟩ : Queue).shutdown = true ∧
    enqueue (some ⟨[0, 8, 9], 3, 2, 1, 0, true⟩) 5
      = Outcome.done (some ⟨[0, 8, 9], 3, 2, 1, 0, true⟩) () [] :=
  ⟨rfl, enqueue_rejected_after_shutdown ⟨[0, 8, 9], 3, 2, 1, 0, true⟩ rfl 5⟩

/-- C10: in every queue state with `shutdown == true`, dequeue returns `NULL`
and leaves the whole record unchanged, whatever `size` is; and whatever calls
follow, they all complete, the record stays as it was and every dequeue among
them returns `NULL`, so the buffered items are never handed out. -/
theorem dequeue_rejected_after_shutdown (q : Queue) (h : q.shutdown = true) :
    dequeue (some q) = Outcome.done (some q) NULL [] ∧
    ∀ ops : List Op, ∃ rets, run (some q) ops = some (some q, rets) ∧
      ∀ p, Ret.ptr p ∈ rets → p = NULL := by
  refine ⟨?_, run_of_shutdown q h⟩
  simp [dequeue, h]

theorem dequeue_rejected_after_shutdown_witness :
    (⟨[0, 8, 9], 3, 2, 1, 0, true⟩ : Queue).shutdown = true ∧
    0 < (⟨[0, 8, 9], 3, 2, 1, 0, true⟩ : Queue).size ∧
    dequeue (some ⟨[0, 8, 9], 3, 2, 1, 0, true⟩)
      = Outcome.done (some ⟨[0, 8, 9], 3, 2, 1, 0, true⟩) NULL [] ∧
    ∃ rets, run (some ⟨[0, 8, 9], 3, 2, 1, 0, true⟩) [Op.dequeue, Op.enqueue 4, Op.dequeue]
        = some (some ⟨[0, 8, 9], 3, 2, 1, 0, true⟩, rets) ∧
      ∀ p, Ret.ptr p ∈ rets → p = NULL :=
  ⟨rfl, by decide, (dequeue_rejected_after_shutdown ⟨[0, 8, 9], 3, 2, 1, 0, true⟩ rfl).1,
    (dequeue_rejected_after_shutdown ⟨[0, 8, 9], 3, 2, 1, 0, true⟩ rfl).2
      [Op.dequeue, Op.enqueue 4, Op.dequeue]⟩

/-! Construction and null handles -/

/-- C11 (counterexample): `queue_init(0)` with every allocation and every
initialisation succeeding does not return `NULL`: it returns a queue of
capacity 0 with an empty buffer. -/
theorem queue_init_zero_capacity_succeeds :
    (0 : Int) ≤ 0 ∧ env_ok.malloc_queue = true ∧ (env_ok.malloc_data (data_bytes 0)).isSome = true ∧
    env_ok.mutex_ok = true ∧ env_ok.cond_not_empty_ok = true ∧ env_ok.cond_not_full_ok = true ∧
    (queue_init env_ok 0).returned = some ⟨[], 0, 0, 0, 1, false⟩ ∧
    (queue_init env_ok 0).returned ≠ none := by
  decide

/-- C11 (amended): `queue_init` does not look at the value of `capacity`: for
every capacity, also zero and negative ones, it returns `NULL` exactly when
one of its two allocations or one of its three mutex/condition
initialisations fails. -/
theorem queue_init_null_iff (env : Env) (c : Int) :
    (queue_init env c).returned = none ↔
      (env.malloc_queue = false ∨ env.malloc_data (data_bytes c) = none ∨
        env.mutex_ok = false ∨ env.cond_not_empty_ok = false ∨ env.cond_not_full_ok = false) := by
  unfold queue_init
  cases hq : env.malloc_queue <;> cases hd : env.malloc_data (data_bytes c) <;>
    cases hm : env.mutex_ok <;> cases he : env.cond_not_empty_ok <;>
    cases hf : env.cond_not_full_ok <;> simp

/-- C12: on the `NULL` handle enqueue, queue_shutdown and queue_destroy do
nothing, dequeue returns `NULL`, is_empty returns true and is_shutdown returns
true; none of them emits a wake-up or releases anything. -/
theorem null_handle_defaults (x : Ptr) :
    enqueue none x = Outcome.done none () [] ∧
    queue_shutdown none = Outcome.done none () [] ∧
    queue_destroy none = [] ∧
    dequeue none = Outcome.done none NULL [] ∧
    is_empty none = Outcome.done none true [] ∧
    is_shutdown none = Outcome.done none true [] :=
  ⟨rfl, rfl, rfl, rfl, rfl, rfl⟩

/-- C13: enqueuing the null item is a no-op in every queue state: the call
returns at once (it never waits), the whole record is unchanged and no wake-up
is emitted. -/
theorem enqueue_null_item_noop (q : Queue) :
    enqueue (some q) NULL = Outcome.done (some q) () [] := by
  simp [enqueue]

/-! Blocking -/

/-- Enqueue on the states of the data model.  For a non-null item, in a state
with a buffer of `capacity` slots, `capacity` an `int`, `tail` a valid index
and `size` between 0 and `capacity`, enqueue completes with an insertion (item
stored at `tail`, `tail` advanced circularly, `size` incremented) if and only
if `size < capacity` and `shutdown` is false; a completed call did either that
or nothing; and on a full queue that is not shut down the call waits on
`not_full`, having written nothing. -/
theorem enqueue_inserts_iff (q : Queue) (item : Ptr) (hitem : item ≠ NULL)
    (hlen : (q.data.length : Int) = q.capacity) (hmax : q.capacity ≤ INT_MAX)
    (htail : 0 ≤ q.tail ∧ q.tail < q.capacity) (hsize : 0 ≤ q.size ∧ q.size ≤ q.capacity) :
    (enqueue (some q) item
        = Outcome.done
            (some ⟨q.data.set q.tail.toNat item, q.capacity, q.size + 1, q.head,
              Int.tmod (q.tail + 1) q.capacity, q.shutdown⟩) ()
            (if q.size + 1 = 1 then [Wake.signal Cond.not_empty] else [])
      ↔ (q.size < q.capacity ∧ q.shutdown = false)) ∧
    (∀ qo w, enqueue (some q) item = Outcome.done qo () w →
      qo = some q ∨
      qo = some ⟨q.data.set q.tail.toNat item, q.capacity, q.size + 1, q.head,
              Int.tmod (q.tail + 1) q.capacity, q.shutdown⟩) ∧
    (q.size = q.capacity ∧ q.shutdown = false →
      enqueue (some q) item = Outcome.waiting Cond.not_full) := by
  have hst : store q.data q.tail item = some (q.data.set q.tail.toNat item) := by
    unfold store
    rw [if_pos ⟨htail.1, by omega⟩]
  have hta : int_add q.tail 1 = some (q.tail + 1) := by
    unfold int_add
    rw [if_pos]
    unfold INT_MIN INT_MAX at *
    omega
  have htm : int_mod (q.tail + 1) q.capacity = some (Int.tmod (q.tail + 1) q.capacity) := by
    unfold int_mod
    rw [if_neg]
    unfold INT_MIN
    omega
  refine ⟨⟨?_, ?_⟩, ?_, ?_⟩
  · intro h
    cases hsh : q.shutdown with
    | true =>
      rw [enqueue_rejected_closed q hsh item] at h
      simp only [Outcome.done.injEq, Option.some.injEq, and_true, true_and] at h
      have := congrArg Queue.size h.1
      simp only at this
      omega
    | false =>
      refine ⟨?_, rfl⟩
      by_contra hfull
      have hfull' : q.size = q.capacity := by omega
      simp [enqueue, hitem, hfull', hsh] at h
  · rintro ⟨hlt, hsh⟩
    have hsa : int_add q.size 1 = some (q.size + 1) := by
      unfold int_add
      rw [if_pos]
      unfold INT_MIN INT_MAX at *
      omega
    have hne : ¬ (q.size = q.capacity) := by omega
    simp [enqueue, hitem, hsh, hne, hst, hta, htm, hsa]
  · intro qo w h
    rcases enqueue_done q item qo w h with ⟨rfl, -, -⟩ | ⟨-, -, -, buf, t, hb, -, ht, -, rfl, -⟩
    · exact Or.inl rfl
    · rw [hst] at hb
      rw [htm] at ht
      simp only [Option.some.injEq] at hb ht
      subst hb ht
      exact Or.inr rfl
  · rintro ⟨hfull, hsh⟩
    simp [enqueue, hitem, hfull, hsh]

/-- C14: enqueue of a non-null item should complete with an insertion whenever
`size < capacity` and `shutdown` is false.  With the values `queue_init(1)`
stores (`size = 0`, `capacity = 1`, `shutdown = false`, `tail = 1`) the queue is
neither full nor shut down, yet enqueue(5) does not complete with an insertion:
it passes the wait loop and the shutdown test and writes `data[1]`, outside
the one-slot buffer.  The structure holding these values is itself outside
the 8-byte block allocated for it, so on the handle `queue_init(1)` returns the
call is undefined even before that write. -/
theorem enqueue_not_full_faults :
    (queue_init env_ok 1).returned = some (fresh 1 1) ∧
    (5 : Ptr) ≠ NULL ∧
    (fresh 1 1).size < (fresh 1 1).capacity ∧ (fresh 1 1).shutdown = false ∧
    enqueue (some (fresh 1 1)) 5 = Outcome.fault ∧
    (enqueue (some (fresh 1 1)) 5).returned = none ∧
    (queue_init env_ok 1).defined = false ∧
    run_program env_ok 1 [Op.enqueue 5] = none := by
  decide

/-- C15: in a state of the data model (a buffer of `capacity` slots,
`capacity` an `int`, `head` a valid index, `size` between 0 and `capacity`),
dequeue completes by removing an item (the item at `head` returned, its slot
cleared, `head` advanced circularly, `size` decremented) if and only if
`size > 0` and `shutdown` is false; a completed call did either that or
nothing; and on an empty queue that is not shut down the call waits on
`not_empty`, returns nothing and has written nothing. -/
theorem dequeue_removes_iff (q : Queue)
    (hlen : (q.data.length : Int) = q.capacity) (hmax : q.capacity ≤ INT_MAX)
    (hhead : 0 ≤ q.head ∧ q.head < q.capacity) (hsize : 0 ≤ q.size ∧ q.size ≤ q.capacity) :
    ((∃ p, q.data[q.head.toNat]? = some p ∧
        dequeue (some q)
          = Outcome.done
              (some ⟨q.data.set q.head.toNat NULL, q.capacity, q.size - 1,
                Int.tmod (q.head + 1) q.capacity, q.tail, q.shutdown⟩) p
              (if q.size - 1 = q.capacity - 1 then [Wake.signal Cond.not_full] else []))
      ↔ (0 < q.size ∧ q.shutdown = false)) ∧
    (∀ qo p w, dequeue (some q) = Outcome.done qo p w →
      qo = some q ∨
      qo = some ⟨q.data.set q.head.toNat NULL, q.capacity, q.size - 1,
                Int.tmod (q.head + 1) q.capacity, q.tail, q.shutdown⟩) ∧
    (q.size = 0 ∧ q.shutdown = false →
      dequeue (some q) = Outcome.waiting Cond.not_empty ∧
      (dequeue (some q)).returned = none) := by
  have hidx : q.head.toNat < q.data.length := by omega
  have hld : load q.data q.head = some (q.data[q.head.toNat]) := by
    unfold load
    rw [if_pos ⟨hhead.1, by omega⟩]
    exact List.getElem?_eq_getElem hidx
  have hst : store q.data q.head NULL = some (q.data.set q.head.toNat NULL) := by
    unfold store
    rw [if_pos ⟨hhead.1, by omega⟩]
  have hha : int_add q.head 1 = some (q.head + 1) := by
    unfold int_add
    rw [if_pos]
    unfold INT_MIN INT_MAX at *
    omega
  have hhm : int_mod (q.head + 1) q.capacity = some (Int.tmod (q.head + 1) q.capacity) := by
    unfold int_mod
    rw [if_neg]
    unfold INT_MIN
    omega
  have hcs : int_sub q.capacity 1 = some (q.capacity - 1) := by
    unfold int_sub
    rw [if_pos]
    unfold INT_MIN INT_MAX at *
    omega
  refine ⟨⟨?_, ?_⟩, ?_, ?_⟩
  · rintro ⟨p, -, h⟩
    cases hsh : q.shutdown with
    | true =>
      rw [dequeue_rejected_closed q hsh] at h
      simp only [Outcome.done.injEq, Option.some.injEq] at h
      have := congrArg Queue.size h.1
      simp only at this
      omega
    | false =>
      refine ⟨?_, rfl⟩
      by_contra hempty
      have hempty' : q.size = 0 := by omega
      simp [dequeue, hempty', hsh] at h
  · rintro ⟨hpos, hsh⟩
    have hss : int_sub q.size 1 = some (q.size - 1) := by
      unfold int_sub
      rw [if_pos]
      unfold INT_MIN INT_MAX at *
      omega
    have hne : ¬ (q.size = 0) := by omega
    refine ⟨q.data[q.head.toNat], List.getElem?_eq_getElem hidx, ?_⟩
    simp [dequeue, hsh, hne, hld, hst, hha, hhm, hss, hcs]
  · intro qo p w h
    rcases dequeue_done q qo p w h with
      ⟨rfl, -, -, -⟩ | ⟨-, -, buf, hd, -, hb, -, ht, -, -, rfl, -⟩
    · exact Or.inl rfl
    · rw [hst] at hb
      rw [hhm] at ht
      simp only [Option.some.injEq] at hb ht
      subst hb ht
      exact Or.inr rfl
  · rintro ⟨hempty, hsh⟩
    simp [dequeue, hempty, hsh, Outcome.returned]

theorem dequeue_removes_iff_witness :
    (((⟨[0, 8, 9], 3, 2, 1, 0, false⟩ : Queue).data.length : Int) = 3) ∧
    (3 : Int) ≤ INT_MAX ∧
    (∃ p, ([0, 8, 9] : List Ptr)[(1 : Int).toNat]? = some p ∧
      dequeue (some ⟨[0, 8, 9], 3, 2, 1, 0, false⟩)
        = Outcome.done (some ⟨[0, 0, 9], 3, 1, 2, 0, false⟩) p []) ∧
    dequeue (some ⟨[0, 0, 0], 3, 0, 1, 1, false⟩) = Outcome.waiting Cond.not_empty :=
  ⟨by decide, by decide,
    (dequeue_removes_iff ⟨[0, 8, 9], 3, 2, 1, 0, false⟩ (by decide) (by decide) (by decide)
      (by decide)).1.2 ⟨by decide, rfl⟩,
    ((dequeue_removes_iff ⟨[0, 0, 0], 3, 0, 1, 1, false⟩ (by decide) (by decide) (by decide)
      (by decide)).2.2 ⟨rfl, rfl⟩).1⟩

/-! Results and wake-ups -/

/-- C16 (counterexample): enqueue of the non-null item 5 on a shut-down queue
(item not inserted) and on a non-full queue that is not shut down (item
inserted) hand back the same value to the caller: `enqueue` returns `void`. -/
theorem enqueue_result_not_distinguishable :
    enqueue (some ⟨[0, 8, 9], 3, 2, 1, 0, true⟩) 5
      = Outcome.done (some ⟨[0, 8, 9], 3, 2, 1, 0, true⟩) () [] ∧
    enqueue (some ⟨[0, 8, 9], 3, 2, 1, 0, false⟩) 5
      = Outcome.done (some ⟨[5, 8, 9], 3, 3, 1, 1, false⟩) () [] ∧
    (enqueue (some ⟨[0, 8, 9], 3, 2, 1, 0, true⟩) 5).returned
      = (enqueue (some ⟨[0, 8, 9], 3, 2, 1, 0, false⟩) 5).returned := by
  decide

/-- C16 (amended): enqueue hands no value back, so a rejection because of
shutdown returns the same (empty) result as a completed insertion; the two
differ only in the queue they leave behind: the rejected call leaves the record
unchanged, the inserting call leaves `size` one larger. -/
theorem enqueue_rejection_only_in_state (q1 q2 : Queue) (item : Ptr) (hitem : item ≠ NULL)
    (h1 : q1.shutdown = true) (h2 : q2.shutdown = false)
    (qo : Option Queue) (w : List Wake)
    (hdone : enqueue (some q2) item = Outcome.done qo () w) :
    enqueue (some q1) item = Outcome.done (some q1) () [] ∧
    (enqueue (some q1) item).returned = (enqueue (some q2) item).returned ∧
    ∃ q2', qo = some q2' ∧ q2'.size = q2.size + 1 := by
  have hrej := enqueue_rejected_closed q1 h1 item
  refine ⟨hrej, ?_, ?_⟩
  · rw [hrej, hdone]
    rfl
  · rcases enqueue_done q2 item qo w hdone with ⟨-, -, hn | hs⟩ | ⟨-, -, -, buf, t, -, -, -, -, rfl, -⟩
    · exact absurd hn hitem
    · rw [h2] at hs
      exact absurd hs (by simp)
    · exact ⟨_, rfl, rfl⟩

theorem enqueue_rejection_only_in_state_witness :
    (5 : Ptr) ≠ NULL ∧
    enqueue (some ⟨[0, 8, 9], 3, 2, 1, 0, false⟩) 5
      = Outcome.done (some ⟨[5, 8, 9], 3, 3, 1, 1, false⟩) () [] ∧
    (enqueue (some ⟨[0, 8, 9], 3, 2, 1, 0, true⟩) 5
      = Outcome.done (some ⟨[0, 8, 9], 3, 2, 1, 0, true⟩) () [] ∧
    (enqueue (some ⟨[0, 8, 9], 3, 2, 1, 0, true⟩) 5).returned
      = (enqueue (some ⟨[0, 8, 9], 3, 2, 1, 0, false⟩) 5).returned ∧
    ∃ q2', some (⟨[5, 8, 9], 3, 3, 1, 1, false⟩ : Queue) = some q2' ∧ q2'.size = 2 + 1) :=
  ⟨by decide, by decide,
    enqueue_rejection_only_in_state ⟨[0, 8, 9], 3, 2, 1, 0, true⟩ ⟨[0, 8, 9], 3, 2, 1, 0, false⟩ 5
      (by decide) rfl rfl (some ⟨[5, 8, 9], 3, 3, 1, 1, false⟩) [] (by decide)⟩

/-- C17: shutdown wakes all waiters.  Let `pending` be calls that are blocked
in the state `q` (enqueues waiting on `not_full`, dequeues waiting on
`not_empty`, any number of each).  One queue_shutdown sets the flag and
broadcasts on both conditions, so the condition each blocked call waits on is
broadcast; and resumed one after the other in any order in the state
queue_shutdown leaves, all the calls return, the queue record stays as
queue_shutdown left it (nothing inserted, nothing removed) and every resumed
dequeue returns `NULL`. -/
theorem shutdown_wakes_all (q : Queue) (pending : List Op)
    (hblocked : ∀ op ∈ pending, ∃ c, step (some q) op = Outcome.waiting c) :
    queue_shutdown (some q)
      = Outcome.done (some ⟨q.data, q.capacity, q.size, q.head, q.tail, true⟩) ()
          [Wake.broadcast Cond.not_empty, Wake.broadcast Cond.not_full] ∧
    (∀ op ∈ pending, ∃ c, step (some q) op = Outcome.waiting c ∧
      Wake.broadcast c ∈ [Wake.broadcast Cond.not_empty, Wake.broadcast Cond.not_full]) ∧
    ∀ order : List Op, order.Perm pending →
      ∃ rets, run (some ⟨q.data, q.capacity, q.size, q.head, q.tail, true⟩) order
          = some (some ⟨q.data, q.capacity, q.size, q.head, q.tail, true⟩, rets) ∧
        rets.length = pending.length ∧
        ∀ p, Ret.ptr p ∈ rets → p = NULL := by
  refine ⟨rfl, ?_, ?_⟩
  · intro op hop
    obtain ⟨c, hc⟩ := hblocked op hop
    refine ⟨c, hc, ?_⟩
    cases c <;> simp
  · intro order hperm
    obtain ⟨rets, hrun, hnull⟩ :=
      run_of_shutdown ⟨q.data, q.capacity, q.size, q.head, q.tail, true⟩ rfl order
    refine ⟨rets, hrun, ?_, hnull⟩
    rw [run_length _ _ _ _ hrun, hperm.length_eq]

theorem shutdown_wakes_all_witness :
    (∀ op ∈ [Op.enqueue 3, Op.enqueue 4],
      ∃ c, step (some ⟨[2, 1], 2, 2, 0, 1, false⟩) op = Outcome.waiting c) ∧
    (∃ rets, run (some ⟨[2, 1], 2, 2, 0, 1, true⟩) [Op.enqueue 4, Op.enqueue 3]
        = some (some ⟨[2, 1], 2, 2, 0, 1, true⟩, rets) ∧
      rets.length = [Op.enqueue 3, Op.enqueue 4].length ∧
      ∀ p, Ret.ptr p ∈ rets → p = NULL) ∧
    (∀ op ∈ [Op.dequeue, Op.dequeue],
      ∃ c, step (some ⟨[0, 0], 2, 0, 1, 1, false⟩) op = Outcome.waiting c) ∧
    (∃ rets, run (some ⟨[0, 0], 2, 0, 1, 1, true⟩) [Op.dequeue, Op.dequeue]
        = some (some ⟨[0, 0], 2, 0, 1, 1, true⟩, rets) ∧
      rets.length = [Op.dequeue, Op.dequeue].length ∧
      ∀ p, Ret.ptr p ∈ rets → p = NULL) :=
  have hfull : ∀ op ∈ [Op.enqueue 3, Op.enqueue 4],
      ∃ c, step (some ⟨[2, 1], 2, 2, 0, 1, false⟩) op = Outcome.waiting c := by
    intro op hop
    simp only [List.mem_cons, List.mem_singleton, List.not_mem_nil, or_false] at hop
    rcases hop with rfl | rfl <;> exact ⟨Cond.not_full, by decide⟩
  have hempty : ∀ op ∈ [Op.dequeue, Op.dequeue],
      ∃ c, step (some ⟨[0, 0], 2, 0, 1, 1, false⟩) op = Outcome.waiting c := by
    intro op hop
    simp only [List.mem_cons, List.mem_singleton, List.not_mem_nil, or_false, or_self] at hop
    subst hop
    exact ⟨Cond.not_empty, by decide⟩
  ⟨hfull,
    (shutdown_wakes_all ⟨[2, 1], 2, 2, 0, 1, false⟩ [Op.enqueue 3, Op.enqueue 4] hfull).2.2
      [Op.enqueue 4, Op.enqueue 3] (List.Perm.swap _ _ _),
    hempty,
    (shutdown_wakes_all ⟨[0, 0], 2, 0, 1, 1, false⟩ [Op.dequeue, Op.dequeue] hempty).2.2
      [Op.dequeue, Op.dequeue] (List.Perm.refl _)⟩

/-- C18: wake discipline.  A completed enqueue either did nothing (null item
or shut-down queue) and emitted nothing, or inserted and emitted one
`not_empty` signal when the resulting size is 1 and nothing otherwise, never a
`not_full` signal.  A completed dequeue either did nothing (shut-down queue)
and emitted nothing, or removed and emitted one `not_full` signal when the
resulting size is `capacity - 1` and nothing otherwise, never a `not_empty`
signal.  queue_shutdown broadcasts on both conditions.  The getters and every
call on the `NULL` handle emit nothing. -/
theorem wake_discipline (q : Queue) :
    (∀ item qo w, enqueue (some q) item = Outcome.done qo () w →
      ((item = NULL ∨ q.shutdown = true) ∧ qo = some q ∧ w = []) ∨
      (item ≠ NULL ∧ q.shutdown = false ∧ ∃ q', qo = some q' ∧ q'.size = q.size + 1 ∧
        w = if q'.size = 1 then [Wake.signal Cond.not_empty] else [])) ∧
    (∀ qo p w, dequeue (some q) = Outcome.done qo p w →
      (q.shutdown = true ∧ qo = some q ∧ w = []) ∨
      (q.shutdown = false ∧ ∃ q', qo = some q' ∧ q'.size = q.size - 1 ∧
        q'.capacity = q.capacity ∧
        w = if q'.size = q'.capacity - 1 then [Wake.signal Cond.not_full] else [])) ∧
    (∃ q', queue_shutdown (some q) = Outcome.done (some q') ()
        [Wake.broadcast Cond.not_empty, Wake.broadcast Cond.not_full]) ∧
    (∃ b, is_empty (some q) = Outcome.done (some q) b []) ∧
    (∃ b, is_shutdown (some q) = Outcome.done (some q) b []) ∧
    (∀ item, enqueue none item = Outcome.done none () []) ∧
    dequeue none = Outcome.done none NULL [] ∧
    queue_shutdown none = Outcome.done none () [] ∧
    is_empty none = Outcome.done none true [] ∧
    is_shutdown none = Outcome.done none true [] := by
  refine ⟨?_, ?_, ⟨_, rfl⟩, ⟨_, rfl⟩, ⟨_, rfl⟩, fun _ => rfl, rfl, rfl, rfl, rfl⟩
  · intro item qo w h
    rcases enqueue_done q item qo w h with
      ⟨hq, hw, hc⟩ | ⟨hitem, hsh, -, buf, t, -, -, -, -, rfl, hw⟩
    · exact Or.inl ⟨hc, hq, hw⟩
    · exact Or.inr ⟨hitem, hsh, _, rfl, rfl, hw⟩
  · intro qo p w h
    rcases dequeue_done q qo p w h with
      ⟨hq, hw, -, hsh⟩ | ⟨hsh, -, buf, hd, -, -, -, -, -, -, rfl, hw⟩
    · exact Or.inl ⟨hsh, hq, hw⟩
    · exact Or.inr ⟨hsh, _, rfl, rfl, rfl, hw⟩

theorem wake_discipline_witness :
    (((5 : Ptr) = NULL ∨ (⟨[170, 170], 2, 0, 0, 1, false⟩ : Queue).shutdown = true) ∧
        some (⟨[170, 5], 2, 1, 0, 0, false⟩ : Queue) = some ⟨[170, 170], 2, 0, 0, 1, false⟩ ∧
        [Wake.signal Cond.not_empty] = []) ∨
      ((5 : Ptr) ≠ NULL ∧ (⟨[170, 170], 2, 0, 0, 1, false⟩ : Queue).shutdown = false ∧
        ∃ q', some (⟨[170, 5], 2, 1, 0, 0, false⟩ : Queue) = some q' ∧
          q'.size = (⟨[170, 170], 2, 0, 0, 1, false⟩ : Queue).size + 1 ∧
          [Wake.signal Cond.not_empty]
            = if q'.size = 1 then [Wake.signal Cond.not_empty] else []) :=
  (wake_discipline ⟨[170, 170], 2, 0, 0, 1, false⟩).1 5
    (some ⟨[170, 5], 2, 1, 0, 0, false⟩) [Wake.signal Cond.not_empty] (by decide)

/-! The ring invariant and the fresh queue -/

/-- C19: the ring-buffer invariant is inductive: from every state with
`capacity ≥ 1`, `0 ≤ head < capacity`, `0 ≤ tail < capacity`,
`0 ≤ size ≤ capacity` and `tail = (head + size) mod capacity`, every completed
enqueue, dequeue or queue_shutdown leaves a live queue that satisfies the same
conditions. -/
theorem ring_inv_inductive (q : Queue) (hinv : ring_inv q) :
    (∀ item qo w, enqueue (some q) item = Outcome.done qo () w →
      ∃ q', qo = some q' ∧ ring_inv q') ∧
    (∀ qo p w, dequeue (some q) = Outcome.done qo p w → ∃ q', qo = some q' ∧ ring_inv q') ∧
    (∀ qo w, queue_shutdown (some q) = Outcome.done qo () w →
      ∃ q', qo = some q' ∧ ring_inv q') := by
  obtain ⟨hcap, hhead, htail, hsize, hspan⟩ := hinv
  have hpos : (0 : Int) < q.capacity := by omega
  have hne : q.capacity ≠ 0 := by omega
  refine ⟨?_, ?_, ?_⟩
  · intro item qo w h
    rcases enqueue_done q item qo w h with
      ⟨rfl, -, -⟩ | ⟨-, -, hfull, buf, t, -, -, ht, -, rfl, -⟩
    · exact ⟨q, rfl, hcap, hhead, htail, hsize, hspan⟩
    · have ht' : t = (q.tail + 1) % q.capacity := by
        rw [(int_mod_some _ _ _ ht).1]
        exact Int.tmod_eq_emod (by omega) (by omega)
      refine ⟨_, rfl, hcap, hhead, ⟨?_, ?_⟩, ⟨?_, ?_⟩, ?_⟩
      · show 0 ≤ t
        rw [ht']
        exact Int.emod_nonneg _ hne
      · show t < q.capacity
        rw [ht']
        exact Int.emod_lt_of_pos _ hpos
      · show 0 ≤ q.size + 1
        omega
      · show q.size + 1 ≤ q.capacity
        omega
      · show t = (q.head + (q.size + 1)) % q.capacity
        rw [ht', hspan, Int.emod_add_emod, Int.add_assoc]
  · intro qo p w h
    rcases dequeue_done q qo p w h with
      ⟨rfl, -, -, -⟩ | ⟨-, hempty, buf, hd, -, -, -, ht, -, -, rfl, -⟩
    · exact ⟨q, rfl, hcap, hhead, htail, hsize, hspan⟩
    · have ht' : hd = (q.head + 1) % q.capacity := by
        rw [(int_mod_some _ _ _ ht).1]
        exact Int.tmod_eq_emod (by omega) (by omega)
      refine ⟨_, rfl, hcap, ⟨?_, ?_⟩, htail, ⟨?_, ?_⟩, ?_⟩
      · show 0 ≤ hd
        rw [ht']
        exact Int.emod_nonneg _ hne
      · show hd < q.capacity
        rw [ht']
        exact Int.emod_lt_of_pos _ hpos
      · show 0 ≤ q.size - 1
        omega
      · show q.size - 1 ≤ q.capacity
        omega
      · show q.tail = (hd + (q.size - 1)) % q.capacity
        rw [ht', hspan, Int.emod_add_emod]
        congr 1
        omega
  · intro qo w h
    simp only [queue_shutdown, Outcome.done.injEq] at h
    exact ⟨_, h.1.symm, hcap, hhead, htail, hsize, hspan⟩

theorem ring_inv_inductive_witness :
    ring_inv ⟨[0, 8, 9], 3, 2, 1, 0, false⟩ ∧
    (∃ q', some (⟨[5, 8, 9], 3, 3, 1, 1, false⟩ : Queue) = some q' ∧ ring_inv q') ∧
    (∃ q', some (⟨[0, 0, 9], 3, 1, 2, 0, false⟩ : Queue) = some q' ∧ ring_inv q') :=
  ⟨by decide,
    (ring_inv_inductive ⟨[0, 8, 9], 3, 2, 1, 0, false⟩ (by decide)).1 5
      (some ⟨[5, 8, 9], 3, 3, 1, 1, false⟩) [] (by decide),
    (ring_inv_inductive ⟨[0, 8, 9], 3, 2, 1, 0, false⟩ (by decide)).2.1
      (some ⟨[0, 0, 9], 3, 1, 2, 0, false⟩) 8 [] (by decide)⟩

/-- C20: a freshly constructed queue should be empty and active, with is_empty
true and is_shutdown false.  `queue_init(2)` stores `size = 0`,
`shutdown = false` and `capacity = 2`, but into a block of 8 bytes: `capacity`
(bytes 8 to 12), `size` (bytes 12 to 16) and `shutdown` (byte 24) lie outside
it, as do the mutex and both condition variables.  The structure behind the
returned handle is not inside its allocation, so what is_empty and is_shutdown
read back from it is undefined. -/
theorem fresh_queue_outside_block :
    (queue_init env_ok 2).returned = some (fresh 2 2) ∧
    (fresh 2 2).size = 0 ∧ (fresh 2 2).shutdown = false ∧ (fresh 2 2).capacity = 2 ∧
    SIZEOF_QUEUE_T = 8 ∧
    Member.offset Member.shutdown = 24 ∧
    Member.in_block SIZEOF_QUEUE_T Member.data = true ∧
    Member.in_block SIZEOF_QUEUE_T Member.capacity = false ∧
    Member.in_block SIZEOF_QUEUE_T Member.size = false ∧
    Member.in_block SIZEOF_QUEUE_T Member.shutdown = false ∧
    Member.in_block SIZEOF_QUEUE_T Member.lock = false ∧
    (queue_init env_ok 2).defined = false ∧
    (queue_init env_ok 2).handle = none ∧
    run_program env_ok 2 [Op.is_shutdown] = none ∧
    run_program env_ok 2 [Op.is_empty] = none := by
  decide

end Lab
